import Mathlib

set_option maxRecDepth 1000000

/-!
Shallow embedding of the ml-sharp-animator core: the PLY metadata codec
(src/web/src/utils/plyMetadata.ts), the camera offset model and depth
quantile estimator (src/trajectory/CameraMatrixUtils.ts) and the viewer's
bounding-box depth fallback (src/viewer/GaussianViewer.ts,
setupCameraForScene).

Modelling conventions:
- A byte buffer (JS ArrayBuffer) is a `List ℕ` of byte values.
- JavaScript numbers are modelled by `JsNum`: an exact rational for finite
  values plus the IEEE-754 specials NaN and ±Infinity.  IEEE-754 double
  rounding of the (tiny) arithmetic the codec performs is not modelled:
  the quantities involved (sums of byte widths, header offsets, decoded
  binary32 payloads, halves of their sums) are exact in double precision.
- The header text is decoded byte-per-character.  The header format is
  ASCII, where TextDecoder("utf-8") yields exactly one character per byte,
  with the same code units that String.prototype.length counts.
- A thrown-and-caught exception (DataView RangeError on an out-of-range
  read) is modelled by `Option`: `none` propagates to the try/catch of
  parsePlyMetadata, which returns the default record.
- three.js matrices are modelled per the library's documented layout:
  `elements` is column-major (index 4*column + row for Matrix4,
  3*column + row for Matrix3) and `set` receives its sixteen (resp. nine)
  arguments in row-major reading order n11, n12, ..., as in the three.js
  sources.
- The two matrix objects allocated for DEFAULT_METADATA are shared, by
  JavaScript object-spread semantics, by every record parsePlyMetadata
  ever returns; `Matrix4.set` mutates them in place.  This shared mutable
  state is modelled by `MatrixStore`, threaded through the stateful
  entry point `parsePlyMetadataS`.
-/

/-- A JavaScript number as observed by the metadata codec: a finite value
(modelled as an exact rational) or one of the IEEE-754 specials. -/
inductive JsNum where
  | num (q : ℚ)
  | nan
  | inf
  | ninf
  deriving DecidableEq, Repr

/-- JavaScript addition on `JsNum`. -/
def jsAdd : JsNum → JsNum → JsNum
  | .num a, .num b => .num (a + b)
  | .nan, _ => .nan
  | _, .nan => .nan
  | .inf, .ninf => .nan
  | .ninf, .inf => .nan
  | .inf, _ => .inf
  | _, .inf => .inf
  | .ninf, _ => .ninf
  | _, .ninf => .ninf

/-- JavaScript multiplication on `JsNum`. -/
def jsMul : JsNum → JsNum → JsNum
  | .num a, .num b => .num (a * b)
  | .nan, _ => .nan
  | _, .nan => .nan
  | .inf, .inf => .inf
  | .inf, .ninf => .ninf
  | .ninf, .inf => .ninf
  | .ninf, .ninf => .inf
  | .inf, .num b => if b = 0 then .nan else if 0 < b then .inf else .ninf
  | .num a, .inf => if a = 0 then .nan else if 0 < a then .inf else .ninf
  | .ninf, .num b => if b = 0 then .nan else if 0 < b then .ninf else .inf
  | .num a, .ninf => if a = 0 then .nan else if 0 < a then .ninf else .inf

/-- Division by two, as in the codec's focal-length average. -/
def jsHalf : JsNum → JsNum
  | .num a => .num (a / 2)
  | x => x

/-- The comparison `x >= 1` used on element counts; false on NaN. -/
def jsGeOne : JsNum → Bool
  | .num a => decide (1 ≤ a)
  | .inf => true
  | _ => false

/-- Math.round: round half toward positive infinity; NaN and infinities
are passed through. -/
def jsRound : JsNum → JsNum
  | .num a => .num ((Int.floor (a + 1/2) : ℤ) : ℚ)
  | x => x

/-- Decode four bytes as an IEEE-754 binary32 value, least significant
byte first, exactly as DataView.getFloat32 with littleEndian=true. -/
def decodeFloat32LE (b0 b1 b2 b3 : ℕ) : JsNum :=
  let u : ℕ := b0 % 256 + 256 * (b1 % 256) + 65536 * (b2 % 256) + 16777216 * (b3 % 256)
  let sign : ℕ := u / 2 ^ 31
  let expo : ℕ := u / 2 ^ 23 % 256
  let frac : ℕ := u % 2 ^ 23
  if expo = 255 then
    if frac = 0 then (if sign = 1 then .ninf else .inf) else .nan
  else
    let mag : ℚ :=
      if expo = 0 then (frac : ℚ) / 2 ^ 149
      else ((2 ^ 23 + frac : ℕ) : ℚ) * 2 ^ expo / 2 ^ 150
    .num (if sign = 1 then -mag else mag)

/-- Decode four bytes as an unsigned 32-bit integer, least significant
byte first, as DataView.getUint32 with littleEndian=true. -/
def decodeUint32LE (b0 b1 b2 b3 : ℕ) : ℕ :=
  b0 % 256 + 256 * (b1 % 256) + 65536 * (b2 % 256) + 16777216 * (b3 % 256)

/-- JS ToIndex conversion applied by DataView accessors to the requested
offset: NaN becomes 0, negative (≤ -1 after truncation toward zero) and
infinite offsets raise a RangeError (modelled as `none`). -/
def toIndex : JsNum → Option ℕ
  | .nan => some 0
  | .inf => none
  | .ninf => none
  | .num q => if q ≤ -1 then none else some (Int.toNat (Int.floor q))

/-- Read `len` bytes at an offset, with the DataView bounds check; `none`
models a raised RangeError. -/
def getBytes (buf : List ℕ) (off : JsNum) (len : ℕ) : Option (List ℕ) :=
  match toIndex off with
  | none => none
  | some i => if i + len ≤ buf.length then some ((buf.drop i).take len) else none

/-- DataView.getFloat32 at a JS offset. -/
def getFloat32 (buf : List ℕ) (off : JsNum) : Option JsNum :=
  match getBytes buf off 4 with
  | some (b0 :: b1 :: b2 :: b3 :: _) => some (decodeFloat32LE b0 b1 b2 b3)
  | _ => none

/-- DataView.getUint32 at a JS offset. -/
def getUint32 (buf : List ℕ) (off : JsNum) : Option ℕ :=
  match getBytes buf off 4 with
  | some (b0 :: b1 :: b2 :: b3 :: _) => some (decodeUint32LE b0 b1 b2 b3)
  | _ => none

/-- DataView.getUint8 at a JS offset. -/
def getUint8 (buf : List ℕ) (off : JsNum) : Option ℕ :=
  match getBytes buf off 1 with
  | some (b0 :: _) => some (b0 % 256)
  | _ => none

/-- Model of readFloats: read `count` consecutive binary32 values at
offset + 4*i.  A single failed read throws, i.e. the whole call fails. -/
def readFloats (buf : List ℕ) (off : JsNum) (count : ℕ) : Option (List JsNum) :=
  (List.range count).mapM fun i => getFloat32 buf (jsAdd off (.num (4 * i)))

/-- Model of readUints: read `count` consecutive uint32 values at
offset + 4*i. -/
def readUints (buf : List ℕ) (off : JsNum) (count : ℕ) : Option (List ℕ) :=
  (List.range count).mapM fun i => getUint32 buf (jsAdd off (.num (4 * i)))

/-- Bytes of an ASCII string literal, used to write header tokens readably. -/
def strBytes (s : String) : List ℕ := s.toList.map Char.toNat

/-- Whitespace recognised by String.prototype.trim and the \s character
class, restricted to the ASCII range the header format uses. -/
def isWsByte (c : ℕ) : Bool := c = 32 || c = 9 || c = 10 || c = 11 || c = 12 || c = 13

/-- String.prototype.trim on a line of header text. -/
def trimBytes (l : List ℕ) : List ℕ :=
  ((l.dropWhile isWsByte).reverse.dropWhile isWsByte).reverse

/-- Helper for the whitespace split: accumulates the current token. -/
def splitWsAux : List ℕ → List ℕ → List (List ℕ)
  | [], acc => if acc = [] then [] else [acc.reverse]
  | c :: rest, acc =>
    if isWsByte c then
      if acc = [] then splitWsAux rest []
      else acc.reverse :: splitWsAux rest []
    else splitWsAux rest (c :: acc)

/-- JS String.prototype.split on the regular expression of one-or-more
whitespace characters.  The codec only applies it to trimmed lines, where
the result is exactly the list of (nonempty) whitespace-separated tokens;
in particular the truthiness tests the codec performs on tokens always
succeed, and are represented below by the corresponding length checks. -/
def splitWs (l : List ℕ) : List (List ℕ) := splitWsAux l []

/-- JS String.prototype.split on a newline character: every line of the
decoded header text, empty segments preserved. -/
def splitLines : List ℕ → List (List ℕ)
  | [] => [[]]
  | c :: rest =>
    if c = 10 then [] :: splitLines rest
    else
      match splitLines rest with
      | [] => [[c]]
      | l :: ls => (c :: l) :: ls

/-- Number.parseInt with radix 10: skip leading whitespace, accept an
optional sign, then read the longest prefix of decimal digits; if there is
none the result is NaN. -/
def parseIntTok (s : List ℕ) : JsNum :=
  let t := s.dropWhile fun c => isWsByte c
  let signed : Bool × List ℕ :=
    match t with
    | 45 :: r => (true, r)
    | 43 :: r => (false, r)
    | r => (false, r)
  let digits := signed.2.takeWhile fun c => 48 ≤ c && c ≤ 57
  if digits = [] then .nan
  else
    let v : ℕ := digits.foldl (fun a c => a * 10 + (c - 48)) 0
    .num (if signed.1 then -(v : ℚ) else (v : ℚ))

/-- Byte width of a PLY primitive type (getPropertyByteSize); unknown
types default to 4. -/
def getPropertyByteSize (ty : List ℕ) : ℕ :=
  if ty = strBytes "char" ∨ ty = strBytes "uchar" ∨ ty = strBytes "int8" ∨
      ty = strBytes "uint8" then 1
  else if ty = strBytes "short" ∨ ty = strBytes "ushort" ∨ ty = strBytes "int16" ∨
      ty = strBytes "uint16" then 2
  else if ty = strBytes "int" ∨ ty = strBytes "uint" ∨ ty = strBytes "int32" ∨
      ty = strBytes "uint32" ∨ ty = strBytes "float" ∨ ty = strBytes "float32" then 4
  else if ty = strBytes "double" ∨ ty = strBytes "float64" then 8
  else 4

/-- Property type info with byte size (PropertyInfo). -/
structure PropertyInfo where
  name : List ℕ
  ty : List ℕ
  byteSize : ℕ
  deriving DecidableEq, Repr

/-- Element info with properties and total byte size (ElementInfo).  The
count comes from Number.parseInt and can be NaN or negative. -/
structure ElementInfo where
  name : List ℕ
  count : JsNum
  properties : List PropertyInfo
  bytesPerElement : ℕ
  deriving DecidableEq, Repr

/-- Header body format declared by the format line. -/
inductive Format where
  | ascii
  | binaryLittleEndian
  | binaryBigEndian
  deriving DecidableEq, Repr

/-- Result of parsePlyHeader. -/
structure PlyHeader where
  headerEndIndex : ℕ
  elements : List ElementInfo
  format : Format
  deriving DecidableEq, Repr

/-- Recompute bytesPerElement from the accumulated properties, as done at
each push of the current element. -/
def finishElement (e : ElementInfo) : ElementInfo :=
  { e with bytesPerElement := e.properties.foldl (fun sum p => sum + p.byteSize) 0 }

/-- Materialise the current element.  The JS code pushes the same object
reference once per malformed element line it survived plus once at the
end, and keeps mutating it in between, so all pushed copies show the final
properties; `k` counts the pushes already performed on account of
malformed element lines. -/
def flushCur (elements : List ElementInfo) : Option (ElementInfo × ℕ) → List ElementInfo
  | none => elements
  | some (e, k) => elements ++ List.replicate (k + 1) (finishElement e)

/-- The line loop of parsePlyHeader.  Arguments: declared format so far,
byte offset consumed so far, completed elements, current element paired
with its completed push count, remaining lines. -/
def parseHeaderLines : Format → ℕ → List ElementInfo → Option (ElementInfo × ℕ) →
    List (List ℕ) → PlyHeader
  | fmt, _, elements, cur, [] =>
    { headerEndIndex := 0, elements := flushCur elements cur, format := fmt }
  | fmt, byteOffset, elements, cur, line :: rest =>
    let byteOffset := byteOffset + line.length + 1
    let trimmed := trimBytes line
    if trimmed = strBytes "end_header" then
      { headerEndIndex := byteOffset, elements := flushCur elements cur, format := fmt }
    else if (strBytes "format ").isPrefixOf trimmed then
      let parts := splitWs trimmed
      let fmt :=
        if parts.getD 1 [] = strBytes "binary_little_endian" then Format.binaryLittleEndian
        else if parts.getD 1 [] = strBytes "binary_big_endian" then Format.binaryBigEndian
        else fmt
      parseHeaderLines fmt byteOffset elements cur rest
    else if (strBytes "element ").isPrefixOf trimmed then
      let parts := splitWs trimmed
      if 3 ≤ parts.length then
        let newEl : ElementInfo :=
          { name := parts.getD 1 [], count := parseIntTok (parts.getD 2 (strBytes "0")),
            properties := [], bytesPerElement := 0 }
        parseHeaderLines fmt byteOffset (flushCur elements cur) (some (newEl, 0)) rest
      else
        match cur with
        | none => parseHeaderLines fmt byteOffset elements none rest
        | some (e, k) => parseHeaderLines fmt byteOffset elements (some (e, k + 1)) rest
    else if (strBytes "property ").isPrefixOf trimmed then
      match cur with
      | none => parseHeaderLines fmt byteOffset elements none rest
      | some (e, k) =>
        let parts := splitWs trimmed
        if 3 ≤ parts.length then
          let p : PropertyInfo :=
            { name := parts.getD (parts.length - 1) [],
              ty := parts.getD 1 [],
              byteSize := getPropertyByteSize (parts.getD 1 []) }
          parseHeaderLines fmt byteOffset elements (some ({ e with properties := e.properties ++ [p] }, k)) rest
        else parseHeaderLines fmt byteOffset elements (some (e, k)) rest
    else parseHeaderLines fmt byteOffset elements cur rest

/-- Parse PLY header to find element declarations with property types
(parsePlyHeader). -/
def parsePlyHeader (text : List ℕ) : PlyHeader :=
  parseHeaderLines Format.ascii 0 [] none (splitLines text)

/-- three.js Matrix4: the `elements` array is column-major (index
4*column + row). -/
structure Matrix4 where
  elements : List JsNum
  deriving DecidableEq, Repr

/-- three.js Matrix3: the `elements` array is column-major (index
3*column + row). -/
structure Matrix3 where
  elements : List JsNum
  deriving DecidableEq, Repr

/-- new Matrix4(): the identity matrix. -/
def Matrix4.identity : Matrix4 :=
  ⟨[.num 1, .num 0, .num 0, .num 0,
    .num 0, .num 1, .num 0, .num 0,
    .num 0, .num 0, .num 1, .num 0,
    .num 0, .num 0, .num 0, .num 1]⟩

/-- new Matrix3(): the identity matrix. -/
def Matrix3.identity : Matrix3 :=
  ⟨[.num 1, .num 0, .num 0,
    .num 0, .num 1, .num 0,
    .num 0, .num 0, .num 1]⟩

/-- three.js Matrix4.set: receives its sixteen arguments in row-major
reading order n11 n12 ... n44 and stores them into the column-major
elements array, per the three.js sources. -/
def Matrix4.set (n11 n12 n13 n14 n21 n22 n23 n24 n31 n32 n33 n34 n41 n42 n43 n44 : JsNum) :
    Matrix4 :=
  ⟨[n11, n21, n31, n41, n12, n22, n32, n42, n13, n23, n33, n43, n14, n24, n34, n44]⟩

/-- three.js Matrix3.set: nine arguments in row-major reading order,
stored column-major. -/
def Matrix3.set (n11 n12 n13 n21 n22 n23 n31 n32 n33 : JsNum) : Matrix3 :=
  ⟨[n11, n21, n31, n12, n22, n32, n13, n23, n33]⟩

/-- Entry of a Matrix4 at zero-based row r, column c, read from the
column-major elements array. -/
def Matrix4.entry (m : Matrix4) (r c : ℕ) : JsNum := m.elements.getD (4 * c + r) .nan

/-- The two matrix objects of DEFAULT_METADATA.  Every record the codec
returns holds references to these same two objects, and Matrix4.set /
Matrix3.set mutate them in place. -/
structure MatrixStore where
  extrinsics : Matrix4
  intrinsics : Matrix3
  deriving DecidableEq, Repr

/-- The store as allocated at module load. -/
def initialStore : MatrixStore := ⟨Matrix4.identity, Matrix3.identity⟩

/-- Color space values of the decoder. -/
inductive ColorSpace where
  | sRGB
  | linearRGB
  deriving DecidableEq, Repr

/-- Decode color space from byte value (decodeColorSpace): 0 is linear,
anything else is sRGB. -/
def decodeColorSpace (value : ℕ) : ColorSpace :=
  if value = 0 then .linearRGB else .sRGB

/-- The PlyMetadata record.  The extrinsics and intrinsics fields are, in
the JS code, references to the shared `MatrixStore` objects; here they
hold the value those objects have when the record is returned. -/
structure PlyMetadata where
  extrinsics : Matrix4
  intrinsics : Matrix3
  imageSize : JsNum × JsNum
  focalLength : JsNum
  colorSpace : ColorSpace
  hasMetadata : Bool
  deriving DecidableEq, Repr

/-- The record produced by spreading DEFAULT_METADATA: fresh copies of
the scalar fields, references to the shared matrices. -/
def defaultMetadata (s : MatrixStore) : PlyMetadata :=
  { extrinsics := s.extrinsics, intrinsics := s.intrinsics,
    imageSize := (.num 640, .num 480), focalLength := .num 0,
    colorSpace := .sRGB, hasMetadata := false }

/-- Map.get after Map.set for every element in declaration order: the
last insertion with a given name wins. -/
def lookupLast (elements : List ElementInfo) (name : List ℕ) : Option ElementInfo :=
  (elements.filter fun e => decide (e.name = name)).getLast?

/-- Cumulative byte offsets of the declared elements: each element starts
where the previous region ended, the first at headerEndIndex.  Offsets are
JS numbers since a NaN or huge element count contaminates every later
offset.  The association list is built head-first, so the first hit of
`offsetOf` is the last Map.set, matching JS Map semantics. -/
def elementOffsets (elements : List ElementInfo) (start : ℕ) : List (List ℕ × JsNum) :=
  (elements.foldl
    (fun (acc : List (List ℕ × JsNum) × JsNum) el =>
      ((el.name, acc.2) :: acc.1,
        jsAdd acc.2 (jsMul el.count (.num (el.bytesPerElement : ℚ)))))
    ([], JsNum.num (start : ℚ))).1

/-- Offset recorded for a named element, if any. -/
def offsetOf (offs : List (List ℕ × JsNum)) (name : List ℕ) : Option JsNum :=
  (offs.find? fun p => decide (p.1 = name)).map Prod.snd

/-- Read the image_size element (2 uint32: width, height) if declared
with count at least 1; a failed read throws (`none`). -/
def stepImageSize (buf : List ℕ) (hdr : PlyHeader) (offs : List (List ℕ × JsNum))
    (m : PlyMetadata) : Option PlyMetadata :=
  match lookupLast hdr.elements (strBytes "image_size") with
  | none => some m
  | some el =>
    if jsGeOne el.count then
      match offsetOf offs (strBytes "image_size") with
      | none => some m
      | some off =>
        match readUints buf off 2 with
        | none => none
        | some vs =>
          match vs with
          | v0 :: v1 :: _ => some { m with imageSize := (.num (v0 : ℚ), .num (v1 : ℚ)) }
          | _ => some m
    else some m

/-- Read the intrinsic element: 9 floats give a 3x3 matrix (focal length
averaged from entries [0] and [4] and the shared intrinsics matrix set),
4 floats are the legacy fx, fy, width, height layout; anything else is
ignored.  In the legacy layout the image size is taken from the element
only when no image_size element was declared. -/
def stepIntrinsic (buf : List ℕ) (hdr : PlyHeader) (offs : List (List ℕ × JsNum))
    (m : PlyMetadata) (s : MatrixStore) : Option (PlyMetadata × MatrixStore) :=
  match lookupLast hdr.elements (strBytes "intrinsic") with
  | none => some (m, s)
  | some el =>
    if jsGeOne el.count then
      match offsetOf offs (strBytes "intrinsic") with
      | none => some (m, s)
      | some off =>
        if el.properties.length = 9 then
          match readFloats buf off 9 with
          | none => none
          | some vs =>
            let fx := vs.getD 0 (.num 512)
            let fy := vs.getD 4 (.num 512)
            let intr := Matrix3.set
              (vs.getD 0 (.num 1)) (vs.getD 1 (.num 0)) (vs.getD 2 (.num 0))
              (vs.getD 3 (.num 0)) (vs.getD 4 (.num 1)) (vs.getD 5 (.num 0))
              (vs.getD 6 (.num 0)) (vs.getD 7 (.num 0)) (vs.getD 8 (.num 1))
            some ({ m with focalLength := jsHalf (jsAdd fx fy), intrinsics := intr },
              { s with intrinsics := intr })
        else if el.properties.length = 4 then
          match readFloats buf off 4 with
          | none => none
          | some vs =>
            let fx := vs.getD 0 (.num 512)
            let fy := vs.getD 1 (.num 512)
            let m1 := { m with focalLength := jsHalf (jsAdd fx fy) }
            if (lookupLast hdr.elements (strBytes "image_size")).isNone then
              some ({ m1 with
                imageSize := (jsRound (vs.getD 2 .nan), jsRound (vs.getD 3 .nan)) }, s)
            else some (m1, s)
        else some (m, s)
    else some (m, s)

/-- Read the extrinsic element: 16 floats (4x4) or legacy 12 floats (3x4);
the shared extrinsics matrix is set with the fields reordered exactly as
in the source. -/
def stepExtrinsic (buf : List ℕ) (hdr : PlyHeader) (offs : List (List ℕ × JsNum))
    (m : PlyMetadata) (s : MatrixStore) : Option (PlyMetadata × MatrixStore) :=
  match lookupLast hdr.elements (strBytes "extrinsic") with
  | none => some (m, s)
  | some el =>
    if jsGeOne el.count then
      match offsetOf offs (strBytes "extrinsic") with
      | none => some (m, s)
      | some off =>
        if el.properties.length = 16 then
          match readFloats buf off 16 with
          | none => none
          | some vs =>
            let ex := Matrix4.set
              (vs.getD 0 (.num 1)) (vs.getD 4 (.num 0)) (vs.getD 8 (.num 0)) (vs.getD 12 (.num 0))
              (vs.getD 1 (.num 0)) (vs.getD 5 (.num 1)) (vs.getD 9 (.num 0)) (vs.getD 13 (.num 0))
              (vs.getD 2 (.num 0)) (vs.getD 6 (.num 0)) (vs.getD 10 (.num 1)) (vs.getD 14 (.num 0))
              (vs.getD 3 (.num 0)) (vs.getD 7 (.num 0)) (vs.getD 11 (.num 0)) (vs.getD 15 (.num 1))
            some ({ m with extrinsics := ex }, { s with extrinsics := ex })
        else if el.properties.length = 12 then
          match readFloats buf off 12 with
          | none => none
          | some vs =>
            let ex := Matrix4.set
              (vs.getD 0 (.num 1)) (vs.getD 4 (.num 0)) (vs.getD 8 (.num 0)) (.num 0)
              (vs.getD 1 (.num 0)) (vs.getD 5 (.num 1)) (vs.getD 9 (.num 0)) (.num 0)
              (vs.getD 2 (.num 0)) (vs.getD 6 (.num 0)) (vs.getD 10 (.num 1)) (.num 0)
              (vs.getD 3 (.num 0)) (vs.getD 7 (.num 0)) (vs.getD 11 (.num 0)) (.num 1)
            some ({ m with extrinsics := ex }, { s with extrinsics := ex })
        else some (m, s)
    else some (m, s)

/-- Read the single-byte color_space element if declared with count at
least 1. -/
def stepColorSpace (buf : List ℕ) (hdr : PlyHeader) (offs : List (List ℕ × JsNum))
    (m : PlyMetadata) : Option PlyMetadata :=
  match lookupLast hdr.elements (strBytes "color_space") with
  | none => some m
  | some el =>
    if jsGeOne el.count then
      match offsetOf offs (strBytes "color_space") with
      | none => some m
      | some off =>
        match getUint8 buf off with
        | none => none
        | some b => some { m with colorSpace := decodeColorSpace b }
    else some m

/-- The sequence of element reads of the try block, from a starting
record and store.  Returns the record when no read threw; the store is
returned in either case because in JS the shared matrices stay mutated
even when a later read throws. -/
def parseBodySteps (buf : List ℕ) (hdr : PlyHeader) (offs : List (List ℕ × JsNum))
    (m0 : PlyMetadata) (s0 : MatrixStore) : Option PlyMetadata × MatrixStore :=
  match stepImageSize buf hdr offs m0 with
  | none => (none, s0)
  | some m1 =>
    match stepIntrinsic buf hdr offs m1 s0 with
    | none => (none, s0)
    | some (m2, s1) =>
      match stepExtrinsic buf hdr offs m2 s1 with
      | none => (none, s1)
      | some (m3, s2) =>
        match stepColorSpace buf hdr offs m3 with
        | none => (none, s2)
        | some m4 => (some m4, s2)

/-- The body-reading part of parsePlyMetadata, inside the try block after
the header checks: the element offsets are laid out from headerEndIndex,
and the record starts as the spread of DEFAULT_METADATA with hasMetadata
set to true. -/
def parseBody (buf : List ℕ) (hdr : PlyHeader) (s0 : MatrixStore) :
    Option PlyMetadata × MatrixStore :=
  parseBodySteps buf hdr (elementOffsets hdr.elements hdr.headerEndIndex)
    { defaultMetadata s0 with hasMetadata := true } s0

/-- The header information parsePlyMetadata works from: only the first
10000 bytes of the buffer are decoded as header text. -/
def headerOf (buf : List ℕ) : PlyHeader := parsePlyHeader (buf.take 10000)

/-- Whether any of the metadata element names is declared: intrinsic or
supplement, or image_size. -/
def hasMetaElements (hdr : PlyHeader) : Bool :=
  ((lookupLast hdr.elements (strBytes "intrinsic")).isSome
      || (lookupLast hdr.elements (strBytes "supplement")).isSome)
    || (lookupLast hdr.elements (strBytes "image_size")).isSome

/-- parsePlyMetadata with the shared matrix state made explicit.  Returns
the record handed to the caller together with the state of the shared
matrices after the call. -/
def parsePlyMetadataS (buf : List ℕ) (s : MatrixStore) : PlyMetadata × MatrixStore :=
  let hdr := headerOf buf
  if hdr.format ≠ Format.binaryLittleEndian then (defaultMetadata s, s)
  else if ¬ hasMetaElements hdr then (defaultMetadata s, s)
  else
    match parseBody buf hdr s with
    | (some m, s1) => (m, s1)
    | (none, s1) => (defaultMetadata s1, s1)

/-- parsePlyMetadata as called on a fresh page load, with the shared
matrices still in their initial (identity) state. -/
def parsePlyMetadata (buf : List ℕ) : PlyMetadata :=
  (parsePlyMetadataS buf initialStore).1

/-- Trajectory parameters as read by computeMaxOffset.  The declaring
types module lists further fields (path type, distance, step and repeat
counts) that computeMaxOffset does not read; the two field names are the
ones the call sites use. -/
structure TrajectoryParams where
  maxDisparity : ℝ
  maxZoom : ℝ

/-- The maximum camera offset along each axis (MaxOffset). -/
structure MaxOffset where
  x : ℝ
  y : ℝ
  z : ℝ

/-- Compute the maximum offset for the camera along the X/Y/Z axes
(computeMaxOffset).  Real arithmetic stands in for JS doubles; note that
the function divides by focalLengthPx with no guard, so statements about
it carry a nonzero-focal-length hypothesis (in Lean division by zero is
zero where JS produces Infinity). -/
noncomputable def computeMaxOffset (minDepth : ℝ) (resolutionPx : ℝ × ℝ)
    (focalLengthPx : ℝ) (params : TrajectoryParams) : MaxOffset :=
  let width := resolutionPx.1
  let height := resolutionPx.2
  let diagonal := Real.sqrt ((width / focalLengthPx) ^ 2 + (height / focalLengthPx) ^ 2)
  let maxLateralOffset := params.maxDisparity * diagonal * minDepth
  let maxMedialOffset := params.maxZoom * minDepth
  { x := maxLateralOffset, y := maxLateralOffset, z := maxMedialOffset }

/-- Result of computeDepthQuantiles. -/
structure DepthQuantiles where
  min : ℚ
  focus : ℚ
  max : ℚ
  deriving DecidableEq, Repr

/-- The depth extraction loop of computeDepthQuantiles: every third
component starting at index 2, kept when it is finite and strictly
positive. -/
def extractDepths (positions : List JsNum) : List ℚ :=
  positions.enum.filterMap fun p =>
    if p.1 % 3 = 2 then
      match p.2 with
      | .num q => if 0 < q then some q else none
      | _ => none
    else none

/-- JS array indexing with a possibly negative integer index: negative
indices read the (absent) property and give undefined. -/
def jsIndex (l : List ℚ) (i : ℤ) : Option ℚ :=
  if i < 0 then none else l.get? i.toNat

/-- Compute depth statistics from Gaussian positions
(computeDepthQuantiles).  The JS comparator (a, b) => a - b sorts
ascending; rationals stand in for doubles, so the quantile products are
exact. -/
def computeDepthQuantiles (positions : List JsNum) (quantile : ℚ) : DepthQuantiles :=
  let depths := extractDepths positions
  if depths.length = 0 then { min := 1, focus := 2, max := 10 }
  else
    let sorted := depths.mergeSort fun a b => decide (a ≤ b)
    let n : ℚ := (depths.length : ℚ)
    let minIndex : ℤ := Int.floor (n * quantile)
    let maxIndex : ℤ := Int.floor (n * (1 - quantile))
    let focusIndex : ℤ := Int.floor (n * (1/2))
    { min := ((jsIndex sorted minIndex).orElse fun _ => jsIndex sorted 0).getD 1,
      focus := ((jsIndex sorted focusIndex).orElse fun _ => jsIndex sorted 0).getD 2,
      max := ((jsIndex sorted maxIndex).orElse fun _ =>
        jsIndex sorted ((sorted.length : ℤ) - 1)).getD 10 }

/-- The bounding-box depth statistics of GaussianViewer.setupCameraForScene:
minDepth = max(0.1, box min z) and depthFocus = max(2.0, box min z + 0.1 *
(box max z - box min z)).  Rationals stand in for doubles (the literal 0.1
is idealised as 1/10). -/
def setupCameraDepths (minZ maxZ : ℚ) : ℚ × ℚ :=
  (max (1/10) minZ, max 2 (minZ + (1/10) * (maxZ - minZ)))

/-- A well-formed little-endian buffer with a legacy 4-float intrinsic
element (fx = fy = 500, width = 640, height = 480) and a one-byte
color_space element with value 1.  The body holds the binary32 encodings
of 500, 500, 640, 480 followed by the byte 1. -/
def bufC1 : List ℕ :=
  strBytes "ply\nformat binary_little_endian 1.0\nelement intrinsic 1\nproperty float fx\nproperty float fy\nproperty float width\nproperty float height\nelement color_space 1\nproperty uchar color_space\nend_header\n"
    ++ [0, 0, 250, 67, 0, 0, 250, 67, 0, 0, 32, 68, 0, 0, 240, 67, 1]

/-- A buffer with a valid header but the unsupported ascii format. -/
def bufAscii : List ℕ :=
  strBytes "ply\nformat ascii 1.0\nelement vertex 0\nend_header\n"

/-- A little-endian buffer whose intrinsic element count is the malformed
numeric token abc (Number.parseInt gives NaN). -/
def bufBadCount : List ℕ :=
  strBytes "ply\nformat binary_little_endian 1.0\nelement intrinsic abc\nproperty float fx\nend_header\n"

/-- A little-endian buffer declaring a legacy 4-float intrinsic element
whose body is missing entirely, so the first float read is out of range
and throws. -/
def bufTruncated : List ℕ :=
  strBytes "ply\nformat binary_little_endian 1.0\nelement intrinsic 1\nproperty float fx\nproperty float fy\nproperty float width\nproperty float height\nend_header\n"

/-- A little-endian buffer with an image_size element (640 x 480) and a
16-float extrinsic element whose stored row-major values are 0, 1, ..., 15
(value at storage index i is i). -/
def bufC5 : List ℕ :=
  strBytes "ply\nformat binary_little_endian 1.0\nelement image_size 1\nproperty uint width\nproperty uint height\nelement extrinsic 1\nproperty float m00\nproperty float m01\nproperty float m02\nproperty float m03\nproperty float m10\nproperty float m11\nproperty float m12\nproperty float m13\nproperty float m20\nproperty float m21\nproperty float m22\nproperty float m23\nproperty float m30\nproperty float m31\nproperty float m32\nproperty float m33\nend_header\n"
    ++ [128, 2, 0, 0, 224, 1, 0, 0]
    ++ [0, 0, 0, 0,  0, 0, 128, 63,  0, 0, 0, 64,  0, 0, 64, 64,
        0, 0, 128, 64,  0, 0, 160, 64,  0, 0, 192, 64,  0, 0, 224, 64,
        0, 0, 0, 65,  0, 0, 16, 65,  0, 0, 32, 65,  0, 0, 48, 65,
        0, 0, 64, 65,  0, 0, 80, 65,  0, 0, 96, 65,  0, 0, 112, 65]

/-- A buffer of exactly 10000 bytes: a little-endian format line padded
with spaces up to the header-decode limit. -/
def bufPad10000 : List ℕ :=
  strBytes "ply\nformat binary_little_endian 1.0\n" ++ List.replicate 9965 32

/-- Declarations that sit entirely beyond byte offset 10000 when appended
to `bufPad10000`. -/
def tailBeyondLimit : List ℕ :=
  strBytes "element intrinsic 1\nproperty float fx\nend_header\n"


theorem stepImageSize_hasMetadata {buf : List ℕ} {hdr : PlyHeader}
    {offs : List (List ℕ × JsNum)} {m m1 : PlyMetadata}
    (h : stepImageSize buf hdr offs m = some m1) : m1.hasMetadata = m.hasMetadata := by
  unfold stepImageSize at h
  repeat' split at h
  all_goals first
    | exact Option.noConfusion h
    | (injection h with h2; subst h2; rfl)

theorem stepIntrinsic_hasMetadata {buf : List ℕ} {hdr : PlyHeader}
    {offs : List (List ℕ × JsNum)} {m m1 : PlyMetadata} {s s1 : MatrixStore}
    (h : stepIntrinsic buf hdr offs m s = some (m1, s1)) :
    m1.hasMetadata = m.hasMetadata := by
  unfold stepIntrinsic at h
  repeat' split at h
  all_goals first
    | exact Option.noConfusion h
    | (injection h with h2; injection h2 with h3 h4; subst h3; rfl)

theorem stepExtrinsic_hasMetadata {buf : List ℕ} {hdr : PlyHeader}
    {offs : List (List ℕ × JsNum)} {m m1 : PlyMetadata} {s s1 : MatrixStore}
    (h : stepExtrinsic buf hdr offs m s = some (m1, s1)) :
    m1.hasMetadata = m.hasMetadata := by
  unfold stepExtrinsic at h
  repeat' split at h
  all_goals first
    | exact Option.noConfusion h
    | (injection h with h2; injection h2 with h3 h4; subst h3; rfl)

theorem stepColorSpace_hasMetadata {buf : List ℕ} {hdr : PlyHeader}
    {offs : List (List ℕ × JsNum)} {m m1 : PlyMetadata}
    (h : stepColorSpace buf hdr offs m = some m1) : m1.hasMetadata = m.hasMetadata := by
  unfold stepColorSpace at h
  repeat' split at h
  all_goals first
    | exact Option.noConfusion h
    | (injection h with h2; subst h2; rfl)

theorem parseBodySteps_hasMetadata {buf : List ℕ} {hdr : PlyHeader}
    {offs : List (List ℕ × JsNum)} {m0 m : PlyMetadata} {s0 : MatrixStore}
    (h : (parseBodySteps buf hdr offs m0 s0).1 = some m) :
    m.hasMetadata = m0.hasMetadata := by
  unfold parseBodySteps at h
  repeat' split at h
  all_goals first
    | exact Option.noConfusion h
    | (injection h with h2; subst h2;
       rw [stepColorSpace_hasMetadata ‹_›, stepExtrinsic_hasMetadata ‹_›,
         stepIntrinsic_hasMetadata ‹_›, stepImageSize_hasMetadata ‹_›])

theorem parseBody_hasMetadata {buf : List ℕ} {hdr : PlyHeader} {s : MatrixStore}
    {m : PlyMetadata}
    (h : (parseBody buf hdr s).1 = some m) : m.hasMetadata = true :=
  parseBodySteps_hasMetadata h

/-- C1: for a well-formed binary_little_endian PLY buffer whose header
declares a legacy 4-float intrinsic element with values fx=500, fy=500,
width=640, height=480 and a single-byte color_space element with value 1,
parsePlyMetadata returns focalLength = 500 (the mean of fx and fy),
imageSize = (640, 480), colorSpace = sRGB (perceptual) and
hasMetadata = true. -/
theorem C1_metadata_roundtrip :
    (parsePlyMetadata bufC1).focalLength = .num 500 ∧
    (parsePlyMetadata bufC1).imageSize = (.num 640, .num 480) ∧
    (parsePlyMetadata bufC1).colorSpace = .sRGB ∧
    (parsePlyMetadata bufC1).hasMetadata = true := by
  with_unfolding_all decide

/-- C7: for every buffer whose header declares any format other than
binary_little_endian, parsePlyMetadata does not touch the body and
returns the default record: present = false and the default image size
640 x 480, whatever the state of the shared matrices. -/
theorem C7_unsupported_format (buf : List ℕ) (s : MatrixStore)
    (h : (headerOf buf).format ≠ Format.binaryLittleEndian) :
    parsePlyMetadataS buf s = (defaultMetadata s, s) ∧
    (parsePlyMetadataS buf s).1.hasMetadata = false ∧
    (parsePlyMetadataS buf s).1.imageSize = (.num 640, .num 480) := by
  have h1 : parsePlyMetadataS buf s = (defaultMetadata s, s) := by
    unfold parsePlyMetadataS
    simp [h]
  exact ⟨h1, by rw [h1]; rfl, by rw [h1]; rfl⟩

/-- Witness for C7 at a concrete ascii-format buffer. -/
theorem C7_unsupported_format_witness :
    (headerOf bufAscii).format ≠ Format.binaryLittleEndian ∧
    parsePlyMetadataS bufAscii initialStore = (defaultMetadata initialStore, initialStore) :=
  ⟨by decide, (C7_unsupported_format bufAscii initialStore (by decide)).1⟩

/-- C2 counterexample: a malformed numeric token in an element count does
not produce the default present=false record.  With the intrinsic count
written abc, Number.parseInt yields NaN, the count check fails, yet the
intrinsic element name alone makes the codec return hasMetadata = true. -/
theorem C2_counterexample :
    (parsePlyMetadata bufBadCount).hasMetadata = true := by
  with_unfolding_all decide

/-- C2 amended: parsePlyMetadata never throws past its boundary — a
failed body read (the only run-time error source) is caught and turned
into the default record, every present=false result is exactly the
default record, and an unsupported format or a header without the
metadata element names yields the default record untouched; but a
malformed element count or missing end_header terminator does not force
present=false when a metadata element name is declared. -/
theorem C2_amended (buf : List ℕ) (s : MatrixStore) :
    ((parsePlyMetadataS buf s).1.hasMetadata = false →
      (parsePlyMetadataS buf s).1 = defaultMetadata (parsePlyMetadataS buf s).2) ∧
    ((parseBody buf (headerOf buf) s).1 = none →
      (parsePlyMetadataS buf s).1 = defaultMetadata (parsePlyMetadataS buf s).2 ∧
      (parsePlyMetadataS buf s).1.hasMetadata = false) ∧
    (¬ ((headerOf buf).format = Format.binaryLittleEndian ∧
        hasMetaElements (headerOf buf) = true) →
      parsePlyMetadataS buf s = (defaultMetadata s, s)) := by
  by_cases hf : (headerOf buf).format = Format.binaryLittleEndian
  · by_cases hm : hasMetaElements (headerOf buf) = true
    · have hps : parsePlyMetadataS buf s =
          (match parseBody buf (headerOf buf) s with
            | (some m, s1) => (m, s1)
            | (none, s1) => (defaultMetadata s1, s1)) := by
        unfold parsePlyMetadataS
        simp [hf, hm]
      cases hpb : parseBody buf (headerOf buf) s with
      | mk o s1 =>
        rw [hpb] at hps
        cases o with
        | some m =>
          refine ⟨?_, ?_, ?_⟩
          · intro hfalse
            have hT : m.hasMetadata = true := parseBody_hasMetadata (by rw [hpb])
            rw [hps] at hfalse
            simp at hfalse
            rw [hT] at hfalse
            exact absurd hfalse (by simp)
          · intro hnone
            exact absurd hnone (by simp)
          · intro hc
            exact absurd ⟨hf, hm⟩ hc
        | none =>
          refine ⟨?_, ?_, ?_⟩
          · intro _
            rw [hps]
          · intro _
            exact ⟨by rw [hps], by rw [hps]; rfl⟩
          · intro hc
            exact absurd ⟨hf, hm⟩ hc
    · have h1 : parsePlyMetadataS buf s = (defaultMetadata s, s) := by
        unfold parsePlyMetadataS
        simp [hf, hm]
      refine ⟨fun _ => by rw [h1], fun _ => ⟨by rw [h1], by rw [h1]; rfl⟩, fun _ => h1⟩
  · have h1 : parsePlyMetadataS buf s = (defaultMetadata s, s) := by
      unfold parsePlyMetadataS
      simp [hf]
    refine ⟨fun _ => by rw [h1], fun _ => ⟨by rw [h1], by rw [h1]; rfl⟩, fun _ => h1⟩

/-- Witness for C2 at a concrete buffer whose declared intrinsic body is
missing: the read throws, the catch yields the default record. -/
theorem C2_amended_witness :
    (parseBody bufTruncated (headerOf bufTruncated) initialStore).1 = none ∧
    (parsePlyMetadataS bufTruncated initialStore).1 =
      defaultMetadata (parsePlyMetadataS bufTruncated initialStore).2 ∧
    (parsePlyMetadataS bufTruncated initialStore).1.hasMetadata = false :=
  ⟨by with_unfolding_all decide,
    (C2_amended bufTruncated initialStore).2.1 (by with_unfolding_all decide)⟩

/-- C10: parsePlyMetadata decodes only the first 10000 bytes of the
buffer as header text, so the header information is the same as for the
buffer truncated at that boundary, and bytes appended beyond offset 10000
(element declarations, the end_header terminator) are never recognised. -/
theorem C10_header_limit (buf rest : List ℕ) :
    headerOf buf = headerOf (buf.take 10000) ∧
    (10000 ≤ buf.length → headerOf (buf ++ rest) = headerOf buf) := by
  constructor
  · unfold headerOf
    rw [List.take_take]
    simp
  · intro h
    unfold headerOf
    congr 1
    exact List.take_append_of_le_length h

/-- Witness for C10: a 10001-byte little-endian header prefix followed by
an intrinsic declaration and the end_header terminator, all beyond the
limit; the tail changes nothing. -/
theorem C10_header_limit_witness :
    10000 ≤ bufPad10000.length ∧
    headerOf (bufPad10000 ++ tailBeyondLimit) = headerOf bufPad10000 := by
  have hlen : 10000 ≤ bufPad10000.length := by
    unfold bufPad10000
    rw [List.length_append, List.length_replicate]
    have h36 : (strBytes "ply\nformat binary_little_endian 1.0\n").length = 36 := by decide
    omega
  exact ⟨hlen, (C10_header_limit bufPad10000 tailBeyondLimit).2 hlen⟩

/-- C5 (code bug): decoding a 16-float extrinsic element whose stored
row-major values are 0, 1, ..., 15 shows that the codec's argument
reordering, composed with the row-major argument order of three.js
Matrix4.set, writes the stored values into the column-major elements
array in raw storage order.  The decoded entry at row r, column c is the
stored value at index 4*c + r — the transpose of the stored matrix — and
in particular entry (0, 1) is 4, not the stored value 1 at index
4*0 + 1 that the specified row-major reading requires. -/
theorem C5_extrinsic_raw_copy :
    (parsePlyMetadata bufC5).extrinsics.elements =
      [.num 0, .num 1, .num 2, .num 3, .num 4, .num 5, .num 6, .num 7,
        .num 8, .num 9, .num 10, .num 11, .num 12, .num 13, .num 14, .num 15] ∧
    (∀ r : Fin 4, ∀ c : Fin 4,
      (parsePlyMetadata bufC5).extrinsics.entry (r : ℕ) (c : ℕ) =
        .num ((4 * (c : ℕ) + (r : ℕ) : ℕ) : ℚ)) ∧
    (parsePlyMetadata bufC5).extrinsics.entry 0 1 = .num 4 ∧
    (parsePlyMetadata bufC5).extrinsics.entry 0 1 ≠ .num 1 := by
  with_unfolding_all decide

/-- C6 (code bug): records returned by parsePlyMetadata are not immutable.
Every returned record's extrinsics and intrinsics fields are references to
the two matrix objects of DEFAULT_METADATA (the object spread copies the
references), and a later call mutates them in place: after a first call
returns a default record whose extrinsics is the shared identity matrix, a
second call on a buffer with an extrinsic element overwrites that same
matrix, changing what the first record's extrinsics field shows. -/
theorem C6_shared_matrices_mutated :
    (parsePlyMetadataS bufAscii initialStore).1.extrinsics = initialStore.extrinsics ∧
    (parsePlyMetadataS bufAscii initialStore).2 = initialStore ∧
    (parsePlyMetadataS bufC5 (parsePlyMetadataS bufAscii initialStore).2).2.extrinsics ≠
      initialStore.extrinsics := by
  with_unfolding_all decide

/-- C3 counterexample: computeMaxOffset applies no clamp to minDepth.
At minDepth = 0 (which is ≤ 0) the returned envelope is exactly the
degenerate all-zero offset, contrary to the claimed positive floor. -/
theorem C3_counterexample :
    (computeMaxOffset 0 (640, 480) 500 ⟨1, 1⟩).x = 0 ∧
    (computeMaxOffset 0 (640, 480) 500 ⟨1, 1⟩).y = 0 ∧
    (computeMaxOffset 0 (640, 480) 500 ⟨1, 1⟩).z = 0 := by
  refine ⟨?_, ?_, ?_⟩ <;> simp [computeMaxOffset]

/-- C3 amended: computeMaxOffset returns exactly
x = y = maxDisparity * sqrt((w/f)^2 + (h/f)^2) * minDepth and
z = maxZoom * minDepth with minDepth used as given (no clamp inside the
function; minDepth = 0 gives the all-zero envelope).  The positive floor
is applied by the caller: the viewer passes minDepth = max(0.1, box min
z), which is strictly positive, so through that pipeline the envelope is
non-degenerate whenever the disparity and zoom fractions are positive. -/
theorem C3_amended (minZ maxZ : ℚ) (w h f : ℝ) (p : TrajectoryParams) (hf : f ≠ 0) :
    computeMaxOffset ((setupCameraDepths minZ maxZ).1 : ℝ) (w, h) f p =
      { x := p.maxDisparity * Real.sqrt ((w / f) ^ 2 + (h / f) ^ 2) *
          ((setupCameraDepths minZ maxZ).1 : ℝ),
        y := p.maxDisparity * Real.sqrt ((w / f) ^ 2 + (h / f) ^ 2) *
          ((setupCameraDepths minZ maxZ).1 : ℝ),
        z := p.maxZoom * ((setupCameraDepths minZ maxZ).1 : ℝ) } ∧
    (computeMaxOffset ((setupCameraDepths minZ maxZ).1 : ℝ) (w, h) f p).x =
      (computeMaxOffset ((setupCameraDepths minZ maxZ).1 : ℝ) (w, h) f p).y ∧
    (0 : ℝ) < ((setupCameraDepths minZ maxZ).1 : ℝ) ∧
    (0 < p.maxDisparity → w ≠ 0 ∨ h ≠ 0 →
      0 < (computeMaxOffset ((setupCameraDepths minZ maxZ).1 : ℝ) (w, h) f p).x) ∧
    (0 < p.maxZoom →
      0 < (computeMaxOffset ((setupCameraDepths minZ maxZ).1 : ℝ) (w, h) f p).z) := by
  have hd : (0 : ℝ) < ((setupCameraDepths minZ maxZ).1 : ℝ) := by
    have h1 : (1/10 : ℚ) ≤ (setupCameraDepths minZ maxZ).1 := le_max_left _ _
    have h0 : (0 : ℚ) < (setupCameraDepths minZ maxZ).1 :=
      lt_of_lt_of_le (by norm_num) h1
    exact_mod_cast h0
  refine ⟨rfl, rfl, hd, ?_, ?_⟩
  · intro hdisp hwh
    have hdiag : 0 < Real.sqrt ((w / f) ^ 2 + (h / f) ^ 2) := by
      apply Real.sqrt_pos.mpr
      rcases hwh with hw | hh
      · have h2 : 0 < (w / f) ^ 2 := sq_pos_of_ne_zero (div_ne_zero hw hf)
        nlinarith [sq_nonneg (h / f)]
      · have h2 : 0 < (h / f) ^ 2 := sq_pos_of_ne_zero (div_ne_zero hh hf)
        nlinarith [sq_nonneg (w / f)]
    show (0 : ℝ) < p.maxDisparity * Real.sqrt ((w / f) ^ 2 + (h / f) ^ 2) *
      ((setupCameraDepths minZ maxZ).1 : ℝ)
    exact mul_pos (mul_pos hdisp hdiag) hd
  · intro hzoom
    show (0 : ℝ) < p.maxZoom * ((setupCameraDepths minZ maxZ).1 : ℝ)
    exact mul_pos hzoom hd

/-- Witness for C3 at minZ = maxZ = 0 (so the caller's clamp is active),
a 3:4 resolution, focal length 1 and unit fractions. -/
theorem C3_amended_witness :
    ((1 : ℝ) ≠ 0) ∧
    (0 : ℝ) < ((setupCameraDepths 0 0).1 : ℝ) ∧
    0 < (computeMaxOffset ((setupCameraDepths 0 0).1 : ℝ) (3, 4) 1
      (TrajectoryParams.mk 1 1)).x ∧
    0 < (computeMaxOffset ((setupCameraDepths 0 0).1 : ℝ) (3, 4) 1
      (TrajectoryParams.mk 1 1)).z := by
  have h := C3_amended 0 0 3 4 1 (TrajectoryParams.mk 1 1) (by norm_num)
  exact ⟨by norm_num, h.2.2.1,
    h.2.2.2.1 (by norm_num) (Or.inl (by norm_num)), h.2.2.2.2 (by norm_num)⟩

/-- C4 counterexample: at minDepth = 0 the lateral bound does not grow
with maxDisparity — both calls return x = 0 although 1 < 2 — so the
monotonicity does not hold for arbitrary calls. -/
theorem C4_counterexample :
    (computeMaxOffset 0 (640, 480) 500 ⟨1, 1⟩).x =
      (computeMaxOffset 0 (640, 480) 500 ⟨2, 1⟩).x ∧
    (1 : ℝ) < 2 := by
  constructor
  · simp [computeMaxOffset]
  · norm_num

/-- C4 amended: with a strictly positive minDepth, a nonzero focal length
and a nonzero resolution component — exactly the conditions making the
lateral factor positive — increasing only maxDisparity strictly increases
x and y and leaves z unchanged, and increasing only maxZoom strictly
increases z and leaves x and y unchanged. -/
theorem C4_amended (minDepth w h f : ℝ) (p q : TrajectoryParams)
    (hd : 0 < minDepth) (hf : f ≠ 0) (hwh : w ≠ 0 ∨ h ≠ 0) :
    ((p.maxZoom = q.maxZoom → p.maxDisparity < q.maxDisparity →
      (computeMaxOffset minDepth (w, h) f p).x < (computeMaxOffset minDepth (w, h) f q).x ∧
      (computeMaxOffset minDepth (w, h) f p).y < (computeMaxOffset minDepth (w, h) f q).y ∧
      (computeMaxOffset minDepth (w, h) f p).z = (computeMaxOffset minDepth (w, h) f q).z) ∧
    (p.maxDisparity = q.maxDisparity → p.maxZoom < q.maxZoom →
      (computeMaxOffset minDepth (w, h) f p).x = (computeMaxOffset minDepth (w, h) f q).x ∧
      (computeMaxOffset minDepth (w, h) f p).y = (computeMaxOffset minDepth (w, h) f q).y ∧
      (computeMaxOffset minDepth (w, h) f p).z < (computeMaxOffset minDepth (w, h) f q).z)) := by
  have hdiag : 0 < Real.sqrt ((w / f) ^ 2 + (h / f) ^ 2) := by
    apply Real.sqrt_pos.mpr
    rcases hwh with hw | hh
    · have h2 : 0 < (w / f) ^ 2 := sq_pos_of_ne_zero (div_ne_zero hw hf)
      nlinarith [sq_nonneg (h / f)]
    · have h2 : 0 < (h / f) ^ 2 := sq_pos_of_ne_zero (div_ne_zero hh hf)
      nlinarith [sq_nonneg (w / f)]
  constructor
  · intro hz hlt
    have hx : (computeMaxOffset minDepth (w, h) f p).x <
        (computeMaxOffset minDepth (w, h) f q).x := by
      show p.maxDisparity * Real.sqrt ((w / f) ^ 2 + (h / f) ^ 2) * minDepth <
        q.maxDisparity * Real.sqrt ((w / f) ^ 2 + (h / f) ^ 2) * minDepth
      exact mul_lt_mul_of_pos_right (mul_lt_mul_of_pos_right hlt hdiag) hd
    refine ⟨hx, hx, ?_⟩
    show p.maxZoom * minDepth = q.maxZoom * minDepth
    rw [hz]
  · intro hdisp hlt
    have hxeq : (computeMaxOffset minDepth (w, h) f p).x =
        (computeMaxOffset minDepth (w, h) f q).x := by
      show p.maxDisparity * Real.sqrt ((w / f) ^ 2 + (h / f) ^ 2) * minDepth =
        q.maxDisparity * Real.sqrt ((w / f) ^ 2 + (h / f) ^ 2) * minDepth
      rw [hdisp]
    refine ⟨hxeq, hxeq, ?_⟩
    show p.maxZoom * minDepth < q.maxZoom * minDepth
    exact mul_lt_mul_of_pos_right hlt hd

/-- Witness for C4: two applications at concrete inputs, one raising only
the disparity fraction from 1 to 2, one raising only the zoom fraction
from 5 to 6. -/
theorem C4_amended_witness :
    ((0 : ℝ) < 1 ∧
      (computeMaxOffset 1 (3, 4) 1 ⟨1, 5⟩).x < (computeMaxOffset 1 (3, 4) 1 ⟨2, 5⟩).x ∧
      (computeMaxOffset 1 (3, 4) 1 ⟨1, 5⟩).z = (computeMaxOffset 1 (3, 4) 1 ⟨2, 5⟩).z) ∧
    ((computeMaxOffset 1 (3, 4) 1 ⟨1, 5⟩).x = (computeMaxOffset 1 (3, 4) 1 ⟨1, 6⟩).x ∧
      (computeMaxOffset 1 (3, 4) 1 ⟨1, 5⟩).z < (computeMaxOffset 1 (3, 4) 1 ⟨1, 6⟩).z) := by
  have h1 := (C4_amended 1 3 4 1 ⟨1, 5⟩ ⟨2, 5⟩ (by norm_num) (by norm_num)
    (Or.inl (by norm_num))).1 rfl (by norm_num)
  have h2 := (C4_amended 1 3 4 1 ⟨1, 5⟩ ⟨1, 6⟩ (by norm_num) (by norm_num)
    (Or.inl (by norm_num))).2 rfl (by norm_num)
  exact ⟨⟨by norm_num, h1.1, h1.2.2⟩, h2.1, h2.2.2⟩

/-- C9 counterexample: with box depths minZ = -10, maxZ = 100 the code
computes focus = max(2, -10 + 0.1 * 110) = 2, while the claimed formula
based on the clamped near value max(0.1, -10) = 0.1 gives
max(2, 0.1 + 11) = 111/10.  The focus formula uses the raw box minimum,
not the clamped near value. -/
theorem C9_counterexample :
    (setupCameraDepths (-10) 100).1 = 1/10 ∧
    (setupCameraDepths (-10) 100).2 = 2 ∧
    max 2 ((setupCameraDepths (-10) 100).1 + (1/10) * (100 - (-10))) = 111/10 ∧
    (setupCameraDepths (-10) 100).2 ≠
      max 2 ((setupCameraDepths (-10) 100).1 + (1/10) * (100 - (-10))) := by
  refine ⟨?_, ?_, ?_, ?_⟩ <;> with_unfolding_all decide

/-- C9 amended: the bounding-volume fallback computes
near = max(0.1, box min depth) and
focus = max(2.0, box min depth + 0.1 * (box max depth - box min depth)),
the focus formula using the raw box minimum; it agrees with the claimed
near-based formula exactly when the box minimum is at least the 0.1
floor. -/
theorem C9_amended (minZ maxZ : ℚ) :
    setupCameraDepths minZ maxZ =
      (max (1/10) minZ, max 2 (minZ + (1/10) * (maxZ - minZ))) ∧
    ((1/10 : ℚ) ≤ minZ →
      (setupCameraDepths minZ maxZ).2 =
        max 2 ((setupCameraDepths minZ maxZ).1 + (1/10) * (maxZ - minZ))) := by
  refine ⟨rfl, fun h => ?_⟩
  show max 2 (minZ + (1/10) * (maxZ - minZ)) =
    max 2 (max (1/10) minZ + (1/10) * (maxZ - minZ))
  rw [max_eq_right h]

/-- Witness for C9 with a box minimum above the floor. -/
theorem C9_amended_witness :
    ((1/10 : ℚ) ≤ 1/2) ∧
    (setupCameraDepths (1/2) 3).2 =
      max 2 ((setupCameraDepths (1/2) 3).1 + (1/10) * (3 - 1/2)) :=
  ⟨by norm_num, (C9_amended (1/2) 3).2 (by norm_num)⟩

theorem floor_tenth (n : ℕ) : Int.floor ((n : ℚ) * (1/10)) = ((n / 10 : ℕ) : ℤ) := by
  have h : (n : ℚ) * (1/10) = ((1 * n : ℕ) : ℚ) / ((10 : ℕ) : ℚ) := by push_cast; ring
  rw [h, Rat.floor_natCast_div_natCast]
  omega

theorem floor_half (n : ℕ) : Int.floor ((n : ℚ) * (1/2)) = ((n / 2 : ℕ) : ℤ) := by
  have h : (n : ℚ) * (1/2) = ((1 * n : ℕ) : ℚ) / ((2 : ℕ) : ℚ) := by push_cast; ring
  rw [h, Rat.floor_natCast_div_natCast]
  omega

theorem floor_nine_tenths (n : ℕ) :
    Int.floor ((n : ℚ) * (1 - 1/10)) = ((9 * n / 10 : ℕ) : ℤ) := by
  have h : (n : ℚ) * (1 - 1/10) = ((9 * n : ℕ) : ℚ) / ((10 : ℕ) : ℚ) := by push_cast; ring
  rw [h, Rat.floor_natCast_div_natCast]
  omega

theorem jsIndex_orElse_getD (l : List ℚ) (i : ℕ) (hi : i < l.length) (d1 : ℚ)
    (f : Unit → Option ℚ) :
    ((jsIndex l ((i : ℕ) : ℤ)).orElse f).getD d1 = l.getD i 0 := by
  unfold jsIndex
  rw [if_neg (by omega)]
  rw [Int.toNat_natCast, List.get?_eq_get hi, List.getD_eq_getElem?_getD,
    List.getElem?_eq_getElem hi]
  rfl

/-- C8: computeDepthQuantiles keeps exactly the every-third (depth)
components that are finite and strictly positive (extractDepths), sorts
them ascending, and returns the values at indices floor(n/10), floor(n/2)
and floor(9n/10) of the sorted list, all in range so the fallback chain is
never taken; with no valid depths it returns the fixed record
(1, 2, 10).  All produced values are rationals (finite by construction),
never NaN or infinite. -/
theorem C8_depth_quantiles (ps : List JsNum) :
    ((extractDepths ps).mergeSort fun a b => decide (a ≤ b)).Sorted (· ≤ ·) ∧
    ((extractDepths ps).mergeSort fun a b => decide (a ≤ b)).Perm (extractDepths ps) ∧
    ((extractDepths ps).length = 0 →
      computeDepthQuantiles ps (1/10) = ⟨1, 2, 10⟩) ∧
    (0 < (extractDepths ps).length →
      (extractDepths ps).length / 10 < (extractDepths ps).length ∧
      (extractDepths ps).length / 2 < (extractDepths ps).length ∧
      9 * (extractDepths ps).length / 10 < (extractDepths ps).length ∧
      computeDepthQuantiles ps (1/10) =
        { min := ((extractDepths ps).mergeSort fun a b => decide (a ≤ b)).getD
            ((extractDepths ps).length / 10) 0,
          focus := ((extractDepths ps).mergeSort fun a b => decide (a ≤ b)).getD
            ((extractDepths ps).length / 2) 0,
          max := ((extractDepths ps).mergeSort fun a b => decide (a ≤ b)).getD
            (9 * (extractDepths ps).length / 10) 0 }) := by
  have hlen : ((extractDepths ps).mergeSort fun a b => decide (a ≤ b)).length =
      (extractDepths ps).length := List.length_mergeSort _
  refine ⟨?_, ?_, ?_, ?_⟩
  · have h := @List.sorted_mergeSort ℚ (fun a b => decide (a ≤ b))
      (fun a b c hab hbc => by
        simp only [decide_eq_true_eq] at *
        exact le_trans hab hbc)
      (fun a b => by simpa using le_total a b)
      (extractDepths ps)
    exact h.imp fun hab => of_decide_eq_true hab
  · exact List.mergeSort_perm _ _
  · intro h0
    unfold computeDepthQuantiles
    rw [if_pos h0]
  · intro hpos
    have i3 : 9 * (extractDepths ps).length / 10 < (extractDepths ps).length := by
      rw [Nat.div_lt_iff_lt_mul (by norm_num)]
      omega
    refine ⟨Nat.div_lt_self hpos (by norm_num), Nat.div_lt_self hpos (by norm_num), i3, ?_⟩
    have e1 := jsIndex_orElse_getD ((extractDepths ps).mergeSort fun a b => decide (a ≤ b))
      ((extractDepths ps).length / 10) (by rw [hlen]; exact Nat.div_lt_self hpos (by norm_num)) 1
      (fun _ => jsIndex ((extractDepths ps).mergeSort fun a b => decide (a ≤ b)) 0)
    have e2 := jsIndex_orElse_getD ((extractDepths ps).mergeSort fun a b => decide (a ≤ b))
      ((extractDepths ps).length / 2) (by rw [hlen]; exact Nat.div_lt_self hpos (by norm_num)) 2
      (fun _ => jsIndex ((extractDepths ps).mergeSort fun a b => decide (a ≤ b)) 0)
    have e3 := jsIndex_orElse_getD ((extractDepths ps).mergeSort fun a b => decide (a ≤ b))
      (9 * (extractDepths ps).length / 10) (by rw [hlen]; exact i3) 10
      (fun _ => jsIndex ((extractDepths ps).mergeSort fun a b => decide (a ≤ b))
        ((((extractDepths ps).mergeSort fun a b => decide (a ≤ b)).length : ℤ) - 1))
    unfold computeDepthQuantiles
    rw [if_neg (by omega)]
    dsimp only
    rw [floor_tenth, floor_half, floor_nine_tenths, e1, e2, e3]

/-- Witness for C8 at a twelve-entry position array whose depth slots
hold 3, 7, a negative value and Infinity: the kept depths are [3, 7] and
the quantile record is (3, 7, 7). -/
theorem C8_depth_quantiles_witness :
    0 < (extractDepths [JsNum.nan, .num 5, .num 3, .num 0, .num 0, .num 7,
      .num 0, .num 0, .num (-2), .num 0, .num 0, .inf]).length ∧
    computeDepthQuantiles [JsNum.nan, .num 5, .num 3, .num 0, .num 0, .num 7,
      .num 0, .num 0, .num (-2), .num 0, .num 0, .inf] (1/10) =
      ⟨3, 7, 7⟩ := by
  have h := (C8_depth_quantiles [JsNum.nan, .num 5, .num 3, .num 0, .num 0, .num 7,
    .num 0, .num 0, .num (-2), .num 0, .num 0, .inf]).2.2.2
    (by with_unfolding_all decide)
  exact ⟨by with_unfolding_all decide, h.2.2.2.trans (by with_unfolding_all decide)⟩
